import Mathlib

/-!
# Verification of the go-libraries mongo package

Shallow embedding of the `mongobase` generic repository and the
`mongoclient` connection helper, together with proofs of the spec's
claims about them.

The repository code (`mongo_base_repo.go`, `mongo.go` / `mongo_client.go`)
is embedded faithfully: each Go method becomes a Lean function over the
outcome of the driver calls it makes.  The MongoDB driver itself is an
external collaborator; where a claim depends on driver semantics
(find-one / update-one / delete-one over a document store), those
semantics are modelled from the spec's description of the driver
boundary and marked `Modelled from the spec:`.
-/

deriving instance DecidableEq for Except

namespace GoLibraries

/-- BSON scalar values as they appear in this repository's documents,
filters and update payloads (string ids, numeric and boolean fields). -/
inductive BVal where
  | str (s : String)
  | int (n : Int)
  | bool (b : Bool)
deriving DecidableEq, Repr

/-- A BSON document / `bson.M` mapping: field name to value.  `bson.M`
is a Go map, so in well-formed documents keys are pairwise distinct;
lemmas that need this take it as a hypothesis. -/
abbrev BsonM := List (String × BVal)

/-- Field lookup in a document: the value of the first entry whose key
matches. -/
def blookup (k : String) : BsonM → Option BVal
  | [] => none
  | (k₀, v) :: d => if k₀ = k then some v else blookup k d

/-- Errors surfaced by the driver.  `noDocuments` is the driver's
"no document matched" error from a single-result decode; `decodeFail`
is a document-decoding failure; `driver` covers every other driver
failure (network, duplicate key, validation, ...). -/
inductive Err where
  | noDocuments
  | decodeFail (msg : String)
  | driver (msg : String)
deriving DecidableEq, Repr

/-- A Go slice of `T`.  Go distinguishes the nil slice (`none` here,
the null/absent marker) from a non-nil slice (`some xs`); both behave
identically under `append` and `len`. -/
abbrev GoSlice (T : Type) := Option (List T)

/-- Go's `append(s, x)`: appending to a nil slice allocates, so the
result is always non-nil. -/
def goAppend {T : Type} (s : GoSlice T) (x : T) : GoSlice T :=
  some (s.getD [] ++ [x])

/-- Go's `len` on a slice: the nil slice has length zero. -/
def goLen {T : Type} (s : GoSlice T) : Nat :=
  (s.getD []).length

/-- The elements of a Go slice, nil and empty both giving `[]`. -/
def goElems {T : Type} (s : GoSlice T) : List T :=
  s.getD []

/-- The driver-level client handle (`*mongo.Client`), opaque to this
package; it is identified here by the connection string it was built
from. -/
structure Client where
  connectionStr : String
deriving DecidableEq, Repr

/-- A database handle obtained from `client.Database(name)`. -/
structure Database where
  client : Client
  name : String
deriving DecidableEq, Repr

/-- A collection handle obtained from `database.Collection(name)`. -/
structure Collection where
  database : Database
  name : String
deriving DecidableEq, Repr

/-- `client.Database(databaseName)`. -/
def clientDatabase (client : Client) (name : String) : Database :=
  { client := client, name := name }

/-- `database.Collection(collectionName)`. -/
def databaseCollection (db : Database) (name : String) : Collection :=
  { database := db, name := name }

/-- `MongoBaseRepository[T]`: its only field is the collection handle. -/
structure MongoBaseRepository (T : Type) where
  collection : Collection
deriving DecidableEq, Repr

/-- `New[T](client, databaseName, collectionName)`: binds the collection
handle `client.Database(databaseName).Collection(collectionName)`. -/
def New (T : Type) (client : Client) (databaseName collectionName : String) :
    MongoBaseRepository T :=
  { collection := databaseCollection (clientDatabase client databaseName) collectionName }

/-- The filter `bson.M{"_id": id}` built by `FindOneById`,
`UpdateOneById` and `DeleteOneById`. -/
def idFilter (id : String) : BsonM :=
  [("_id", BVal.str id)]

/-- Result of the driver's `InsertOne` (`*mongo.InsertOneResult`). -/
structure InsertOneResult where
  insertedID : BVal
deriving DecidableEq, Repr

/-- Result of the driver's `UpdateOne` (`*mongo.UpdateResult`). -/
structure UpdateResult where
  matchedCount : Nat
  modifiedCount : Nat
deriving DecidableEq, Repr

/-- Result of the driver's `DeleteOne` (`*mongo.DeleteResult`). -/
structure DeleteResult where
  deletedCount : Nat
deriving DecidableEq, Repr

/-- The update-spec documents this package constructs: only
`bson.M{"$set": update}` is ever built (`UpdateOneById`). -/
inductive BUpdate where
  | set (fields : BsonM)
deriving DecidableEq, Repr

/-- `InsertOne`: delegates to the driver's single-document insert
(`driverInsert` is the outcome of `repo.collection.InsertOne(ctx, document)`),
returns `nil` on success and the driver's error otherwise.  The method
never writes to the receiver, returned unchanged as the second
component. -/
def InsertOne {T : Type} (repo : MongoBaseRepository T)
    (driverInsert : Except Err InsertOneResult) :
    Option Err × MongoBaseRepository T :=
  match driverInsert with
  | .error err => (some err, repo)
  | .ok _ => (none, repo)

/-- `FindOneById`: builds the filter `bson.M{"_id": id}` and runs
`repo.collection.FindOne(ctx, filter).Decode(&result)`.  `findOneDecode`
is that combined driver call: given the filter it yields the final
contents of `result` and the error, both returned verbatim. -/
def FindOneById {T : Type} (repo : MongoBaseRepository T)
    (findOneDecode : BsonM → T × Option Err) (id : String) :
    (T × Option Err) × MongoBaseRepository T :=
  let filter := idFilter id
  match findOneDecode filter with
  | (result, some err) => ((result, some err), repo)
  | (result, none) => ((result, none), repo)

/-- The loop body of `FindAll`: `for cursor.Next(ctx) { var item T;
if err := cursor.Decode(&item); err != nil { return nil, err };
results = append(results, item) }`, iterating over the documents the
cursor yields, accumulating into the Go slice `results`. -/
def findAllLoop {T : Type} (decode : BsonM → Except Err T) :
    List BsonM → GoSlice T → Except Err (GoSlice T)
  | [], results => .ok results
  | d :: ds, results =>
    match decode d with
    | .error e => .error e
    | .ok item => findAllLoop decode ds (goAppend results item)

/-- `FindAll`: runs `repo.collection.Find(ctx, filter)` (`find`, whose
success carries the documents in cursor iteration order together with
the cursor's post-iteration error `cursor.Err()`), then the decode loop
starting from the nil slice `var results []T`, then the `cursor.Err()`
check; each failure path is `return nil, err`. -/
def FindAll {T : Type} (repo : MongoBaseRepository T)
    (find : BsonM → Except Err (List BsonM × Option Err))
    (decode : BsonM → Except Err T) (filter : BsonM) :
    (GoSlice T × Option Err) × MongoBaseRepository T :=
  match find filter with
  | .error e => ((none, some e), repo)
  | .ok (docs, cursorErr) =>
    match findAllLoop decode docs none with
    | .error e => ((none, some e), repo)
    | .ok results =>
      match cursorErr with
      | some e => ((none, some e), repo)
      | none => ((results, none), repo)

/-- `UpdateOneById`: builds the filter `bson.M{"_id": id}` and calls
`repo.collection.UpdateOne(ctx, filter, bson.M{"$set": update})`
(`driverUpdate`), discarding the driver's result value and returning
only the error. -/
def UpdateOneById {T : Type} (repo : MongoBaseRepository T)
    (driverUpdate : BsonM → BUpdate → Except Err UpdateResult)
    (id : String) (update : BsonM) :
    Option Err × MongoBaseRepository T :=
  let filter := idFilter id
  match driverUpdate filter (BUpdate.set update) with
  | .error e => (some e, repo)
  | .ok _ => (none, repo)

/-- `DeleteOneById`: builds the filter `bson.M{"_id": id}` and calls
`repo.collection.DeleteOne(ctx, filter)` (`driverDelete`), discarding
the driver's result value and returning only the error. -/
def DeleteOneById {T : Type} (repo : MongoBaseRepository T)
    (driverDelete : BsonM → Except Err DeleteResult)
    (id : String) :
    Option Err × MongoBaseRepository T :=
  let filter := idFilter id
  match driverDelete filter with
  | .error e => (some e, repo)
  | .ok _ => (none, repo)

/-- `MongoClient`: wraps the driver-level client handle, parametric in
the handle type `C` (`*mongo.Client` in the source). -/
structure MongoClient (C : Type) where
  client : C
deriving DecidableEq, Repr

/-- `Connect(connectionStr)` (`mongoclient`): builds the driver client
with `mongo.Connect(options.Client().ApplyURI(connectionStr))`
(`mongoConnect`), returns its error on failure; then pings
(`ping`), returns the ping error on failure; otherwise wraps the
client.  Both source variants (`mongo.go`, with a background context,
and `mongo_client.go`, with a caller context) have this exact
structure. -/
def Connect {C : Type} (mongoConnect : String → Except Err C)
    (ping : C → Option Err) (connectionStr : String) :
    Except Err (MongoClient C) :=
  match mongoConnect connectionStr with
  | .error err => .error err
  | .ok client =>
    match ping client with
    | some err => .error err
    | none => .ok { client := client }

/-- Modelled from the spec: a filter is "an unordered mapping describing
match criteria for documents"; a document matches when every field named
by the filter has exactly the filter's value (exact-match criteria, the
only kind this package builds). -/
def matchesFilter (filter doc : BsonM) : Bool :=
  filter.all (fun kv => decide (blookup kv.1 doc = some kv.2))

/-- Modelled from the spec: the driver's `find-one(filter)` retrieves
"at most one document" — the first document of the store (in its
iteration order) matching the filter, if any. -/
def driverFindOne (store : List BsonM) (filter : BsonM) : Option BsonM :=
  store.find? (fun doc => matchesFilter filter doc)

/-- Modelled from the spec: decoding a single-result.  With no matching
document the driver reports its "not found" error and leaves the output
buffer untouched (still the zero value `zero` of `var result T`);
otherwise it decodes the document, `decode` giving the final buffer
contents and the decode error if any. -/
def singleResultDecode {T : Type} (decode : BsonM → T × Option String)
    (zero : T) (res : Option BsonM) : T × Option Err :=
  match res with
  | none => (zero, some Err.noDocuments)
  | some d =>
    match decode d with
    | (v, some msg) => (v, some (Err.decodeFail msg))
    | (v, none) => (v, none)

/-- Modelled from the spec: the combined driver call
`FindOne(filter).Decode(&result)` over a concrete document store. -/
def mongoFindOneDecode {T : Type} (store : List BsonM)
    (decode : BsonM → T × Option String) (zero : T) (filter : BsonM) :
    T × Option Err :=
  singleResultDecode decode zero (driverFindOne store filter)

/-- Setting one field of a document: overwrite the field in place if
present, append it otherwise. -/
def bsonSet (k : String) (v : BVal) : BsonM → BsonM
  | [] => [(k, v)]
  | (k₀, v₀) :: d => if k₀ = k then (k, v) :: d else (k₀, v₀) :: bsonSet k v d

/-- Modelled from the spec: replace-field semantics of a `$set` payload —
"each key in the mapping overwrites the corresponding document field;
fields not mentioned are untouched". -/
def setFields (doc : BsonM) (fields : BsonM) : BsonM :=
  fields.foldl (fun d kv => bsonSet kv.1 kv.2 d) doc

/-- Applying an update-spec document to a single document. -/
def applyUpdate (u : BUpdate) (doc : BsonM) : BsonM :=
  match u with
  | .set fields => setFields doc fields

/-- Rewrite the first document satisfying `p`, leaving the rest
unchanged. -/
def updateFirst (p : BsonM → Bool) (f : BsonM → BsonM) :
    List BsonM → List BsonM
  | [] => []
  | d :: ds => if p d then f d :: ds else d :: updateFirst p f ds

/-- Remove the first document satisfying `p`. -/
def removeFirst (p : BsonM → Bool) : List BsonM → List BsonM
  | [] => []
  | d :: ds => if p d then ds else d :: removeFirst p ds

/-- Modelled from the spec: the driver's `update-one(filter, update-spec)`
updates "the single document matching the identifier"; with no match it
succeeds with zero documents modified.  Returns the new store and the
driver result. -/
def driverUpdateOne (store : List BsonM) (filter : BsonM) (u : BUpdate) :
    List BsonM × Except Err UpdateResult :=
  match store.find? (fun doc => matchesFilter filter doc) with
  | none => (store, .ok { matchedCount := 0, modifiedCount := 0 })
  | some _ =>
    (updateFirst (fun doc => matchesFilter filter doc) (applyUpdate u) store,
     .ok { matchedCount := 1, modifiedCount := 1 })

/-- Modelled from the spec: the driver's `delete-one(filter)` deletes
the single matching document and "succeeds even when zero documents
matched". -/
def driverDeleteOne (store : List BsonM) (filter : BsonM) :
    List BsonM × Except Err DeleteResult :=
  match store.find? (fun doc => matchesFilter filter doc) with
  | none => (store, .ok { deletedCount := 0 })
  | some _ =>
    (removeFirst (fun doc => matchesFilter filter doc) store,
     .ok { deletedCount := 1 })

/-! ## Supporting lemmas -/

theorem blookup_eq_none_of_not_mem {k : String} {d : BsonM}
    (h : k ∉ d.map Prod.fst) : blookup k d = none := by
  induction d with
  | nil => rfl
  | cons kv d ih =>
    obtain ⟨k₀, v₀⟩ := kv
    simp only [List.map_cons, List.mem_cons, not_or] at h
    have hne : ¬ k₀ = k := fun hh => h.1 hh.symm
    simp only [blookup, if_neg hne, ih h.2]

theorem bsonSet_blookup (k : String) (v : BVal) (d : BsonM) (k' : String) :
    blookup k' (bsonSet k v d) = if k = k' then some v else blookup k' d := by
  induction d with
  | nil =>
    by_cases h : k = k' <;> simp [bsonSet, blookup, h]
  | cons kv d ih =>
    obtain ⟨k₀, v₀⟩ := kv
    by_cases h0 : k₀ = k
    · subst h0
      by_cases h : k₀ = k'
      · simp [bsonSet, blookup, h]
      · simp [bsonSet, blookup, h]
    · by_cases h : k₀ = k'
      · have hkk' : ¬ k = k' := fun hk => h0 (h.trans hk.symm)
        have hk'k : ¬ k' = k := fun hk => hkk' hk.symm
        subst h
        simp [bsonSet, blookup, h0, hkk', hk'k]
      · simp [bsonSet, blookup, h0, h, ih]

theorem setFields_blookup (fields : BsonM) (doc : BsonM) (k : String)
    (hnd : (fields.map Prod.fst).Nodup) :
    blookup k (setFields doc fields) =
      match blookup k fields with
      | some v => some v
      | none => blookup k doc := by
  induction fields generalizing doc with
  | nil => simp [setFields, blookup]
  | cons kv fields ih =>
    obtain ⟨k₀, v₀⟩ := kv
    simp only [List.map_cons, List.nodup_cons] at hnd
    have step : setFields doc ((k₀, v₀) :: fields) = setFields (bsonSet k₀ v₀ doc) fields := by
      simp [setFields]
    rw [step, ih (bsonSet k₀ v₀ doc) hnd.2]
    by_cases hk : k₀ = k
    · subst hk
      have : blookup k₀ fields = none := blookup_eq_none_of_not_mem hnd.1
      simp [blookup, this, bsonSet_blookup]
    · simp only [blookup, if_neg hk]
      cases blookup k fields with
      | some v => simp
      | none => simp [bsonSet_blookup, hk]

theorem matchesFilter_idFilter (id : String) (doc : BsonM) :
    matchesFilter (idFilter id) doc = true ↔ blookup "_id" doc = some (BVal.str id) := by
  simp [matchesFilter, idFilter]

theorem find?_matches {store : List BsonM} {filter d : BsonM}
    (h : driverFindOne store filter = some d) : matchesFilter filter d = true := by
  have := List.find?_some h
  simpa using this

theorem find?_updateFirst (p : BsonM → Bool) (f : BsonM → BsonM) :
    ∀ (store : List BsonM) (d : BsonM), store.find? p = some d → p (f d) = true →
      (updateFirst p f store).find? p = some (f d) := by
  intro store
  induction store with
  | nil => intro d h _; simp [List.find?] at h
  | cons x xs ih =>
    intro d h hf
    by_cases hx : p x = true
    · rw [List.find?_cons_of_pos _ hx] at h
      obtain rfl : x = d := by injection h
      simp [updateFirst, hx, List.find?_cons_of_pos _ hf]
    · have hx' : ¬ p x = true := hx
      rw [List.find?_cons_of_neg _ hx'] at h
      simp only [updateFirst, if_neg hx']
      rw [List.find?_cons_of_neg _ hx']
      exact ih d h hf

theorem findAllLoop_all_ok_some {T : Type} (decode : BsonM → Except Err T) (g : BsonM → T) :
    ∀ (docs : List BsonM),
      (∀ d ∈ docs, decode d = .ok (g d)) →
      ∀ xs : List T, findAllLoop decode docs (some xs) = .ok (some (xs ++ docs.map g)) := by
  intro docs
  induction docs with
  | nil => intro _ xs; simp [findAllLoop]
  | cons d ds ih =>
    intro h xs
    have hd : decode d = .ok (g d) := h d (List.mem_cons_self d ds)
    have hds : ∀ x ∈ ds, decode x = .ok (g x) := fun x hx => h x (List.mem_cons_of_mem d hx)
    simp only [findAllLoop, hd]
    have hg : goAppend (some xs) (g d) = some (xs ++ [g d]) := rfl
    rw [hg, ih hds (xs ++ [g d])]
    simp

theorem findAllLoop_first_error {T : Type} (decode : BsonM → Except Err T) (g : BsonM → T) :
    ∀ (pre : List BsonM) (d : BsonM) (post : List BsonM) (acc : GoSlice T) (e : Err),
      (∀ x ∈ pre, decode x = .ok (g x)) → decode d = .error e →
      findAllLoop decode (pre ++ d :: post) acc = .error e := by
  intro pre
  induction pre with
  | nil => intro d post acc e _ hd; simp [findAllLoop, hd]
  | cons x xs ih =>
    intro d post acc e h hd
    have hx : decode x = .ok (g x) := h x (List.mem_cons_self x xs)
    have hxs : ∀ y ∈ xs, decode y = .ok (g y) := fun y hy => h y (List.mem_cons_of_mem x hy)
    simp only [List.cons_append, findAllLoop, hx]
    exact ih d post (goAppend acc (g x)) e hxs hd

theorem findOneById_eq {T : Type} (repo : MongoBaseRepository T)
    (findOneDecode : BsonM → T × Option Err) (id : String) :
    FindOneById repo findOneDecode id = (findOneDecode (idFilter id), repo) := by
  unfold FindOneById
  cases hf : findOneDecode (idFilter id) with
  | mk v err => cases err <;> simp [hf]

/-! ## Concrete sample data (for evaluating the claims on closed inputs) -/

/-- A concrete repository instance, as built by `New`. -/
def natRepo : MongoBaseRepository Nat :=
  New Nat { connectionStr := "mongodb-test" } "testdb" "testcol"

/-- A concrete stored document. -/
def annDoc : BsonM :=
  [("_id", BVal.str "u1"), ("name", BVal.str "Ann"), ("age", BVal.int 30)]

/-- A second concrete stored document. -/
def bobDoc : BsonM :=
  [("_id", BVal.str "u2"), ("name", BVal.str "Bob"), ("age", BVal.int 25)]

/-- A document missing the `age` field, so it fails to decode below. -/
def badDoc : BsonM :=
  [("_id", BVal.str "u3"), ("name", BVal.str "Eve")]

/-- A concrete two-document store. -/
def sampleStore : List BsonM := [annDoc, bobDoc]

/-- A concrete decoder into `Nat` (the entity is its `age` field),
returning the final buffer contents and the decode error if any. -/
def decodeAge (d : BsonM) : Nat × Option String :=
  match blookup "age" d with
  | some (BVal.int n) => (n.toNat, none)
  | _ => (0, some "cannot decode document")

/-- The same decoder in `Except` form, as the `FindAll` loop consumes it. -/
def decodeAgeE (d : BsonM) : Except Err Nat :=
  match blookup "age" d with
  | some (BVal.int n) => .ok n.toNat
  | _ => .error (Err.decodeFail "cannot decode document")

/-- The pure value `decodeAgeE` yields on documents that decode. -/
def gAge (d : BsonM) : Nat :=
  match blookup "age" d with
  | some (BVal.int n) => n.toNat
  | _ => 0

/-! ## Claims -/

/-- C1: counterexample — at the concrete input where the query succeeds
with zero matching documents, `FindAll` returns no error but the nil
slice (Go's null/absent marker), not an explicit empty sequence as the
claim states. -/
theorem C1_counterexample :
    (FindAll natRepo (fun _ => Except.ok ([], none)) decodeAgeE []).1 = (none, none) ∧
      (FindAll natRepo (fun _ => Except.ok ([], none)) decodeAgeE []).1 ≠ (some [], none) := by
  refine ⟨rfl, fun h => ?_⟩
  have h1 : ((none : GoSlice Nat), (none : Option Err)) = (some [], none) := h
  simp at h1

/-- C1 (amended): for every filter whose query succeeds and matches zero
documents, `FindAll` returns no error and a sequence of length zero —
but that sequence is the nil slice (the null/absent marker left by
`var results []T`), not an explicit empty sequence. -/
theorem C1_findAll_zero_match {T : Type} (repo : MongoBaseRepository T)
    (find : BsonM → Except Err (List BsonM × Option Err))
    (decode : BsonM → Except Err T) (filter : BsonM)
    (h : find filter = Except.ok ([], none)) :
    (FindAll repo find decode filter).1 = (none, none) ∧
      goLen (FindAll repo find decode filter).1.1 = 0 := by
  unfold FindAll
  rw [h]
  exact ⟨rfl, rfl⟩

/-- C1 witness: the amended statement evaluated at a concrete query with
zero matches. -/
theorem C1_findAll_zero_match_witness :
    (FindAll natRepo (fun _ => Except.ok ([], none)) decodeAgeE
        [("name", BVal.str "Zoe")]).1 = (none, none) ∧
      goLen (FindAll natRepo (fun _ => Except.ok ([], none)) decodeAgeE
        [("name", BVal.str "Zoe")]).1.1 = 0 :=
  C1_findAll_zero_match natRepo (fun _ => Except.ok ([], none)) decodeAgeE
    [("name", BVal.str "Zoe")] rfl

/-- C2: if the query succeeds with documents `docs` (cursor order) and
every document decodes, `FindAll` returns exactly `docs.length` decoded
entities in cursor iteration order and no error; if any single document
fails to decode, the whole call returns that error with no partial
results. -/
theorem C2_findAll_complete {T : Type} (repo : MongoBaseRepository T)
    (find : BsonM → Except Err (List BsonM × Option Err))
    (decode : BsonM → Except Err T) (filter : BsonM) :
    (∀ (docs : List BsonM) (g : BsonM → T),
      find filter = Except.ok (docs, none) →
      (∀ d ∈ docs, decode d = Except.ok (g d)) →
      goElems (FindAll repo find decode filter).1.1 = docs.map g ∧
      goLen (FindAll repo find decode filter).1.1 = docs.length ∧
      (FindAll repo find decode filter).1.2 = none) ∧
    (∀ (pre : List BsonM) (d : BsonM) (post : List BsonM) (g : BsonM → T)
        (e : Err) (cerr : Option Err),
      find filter = Except.ok (pre ++ d :: post, cerr) →
      (∀ x ∈ pre, decode x = Except.ok (g x)) →
      decode d = Except.error e →
      (FindAll repo find decode filter).1 = (none, some e)) := by
  constructor
  · intro docs g hq hdec
    cases docs with
    | nil =>
      simp [FindAll, hq, findAllLoop, goElems, goLen]
    | cons d ds =>
      have hd : decode d = .ok (g d) := hdec d (List.mem_cons_self d ds)
      have hds : ∀ x ∈ ds, decode x = .ok (g x) :=
        fun x hx => hdec x (List.mem_cons_of_mem d hx)
      have hloop : findAllLoop decode (d :: ds) none = .ok (some ((d :: ds).map g)) := by
        simp only [findAllLoop, hd]
        have hg : goAppend none (g d) = some [g d] := rfl
        rw [hg, findAllLoop_all_ok_some decode g ds hds [g d]]
        simp
      simp [FindAll, hq, hloop, goElems, goLen]
  · intro pre d post g e cerr hq hpre hd
    have hloop := findAllLoop_first_error decode g pre d post none e hpre hd
    simp only [FindAll, hq, hloop]

/-- C2 witness: the completeness half on a concrete two-document store
(entities `[30, 25]` in cursor order) and the failure half on a store
whose second document does not decode. -/
theorem C2_findAll_complete_witness :
    (goElems (FindAll natRepo (fun _ => Except.ok (sampleStore, none)) decodeAgeE []).1.1
        = [30, 25] ∧
      goLen (FindAll natRepo (fun _ => Except.ok (sampleStore, none)) decodeAgeE []).1.1 = 2 ∧
      (FindAll natRepo (fun _ => Except.ok (sampleStore, none)) decodeAgeE []).1.2 = none) ∧
    (FindAll natRepo (fun _ => Except.ok ([annDoc, badDoc], none)) decodeAgeE []).1
        = (none, some (Err.decodeFail "cannot decode document")) :=
  ⟨(C2_findAll_complete natRepo (fun _ => Except.ok (sampleStore, none)) decodeAgeE []).1
      sampleStore gAge rfl (by decide),
   (C2_findAll_complete natRepo (fun _ => Except.ok ([annDoc, badDoc], none)) decodeAgeE []).2
      [annDoc] badDoc [] gAge (Err.decodeFail "cannot decode document") none rfl
      (by decide) (by decide)⟩

/-- C9: whenever `FindAll` returns a non-nil error — from the initial
query, from decoding, or from the post-iteration cursor check — the
sequence returned alongside it is the nil (absent) slice: no partially
accumulated results are ever returned with an error. -/
theorem C9_findAll_nil_on_error {T : Type} (repo : MongoBaseRepository T)
    (find : BsonM → Except Err (List BsonM × Option Err))
    (decode : BsonM → Except Err T) (filter : BsonM) (e : Err)
    (h : (FindAll repo find decode filter).1.2 = some e) :
    (FindAll repo find decode filter).1.1 = none := by
  rcases hq : find filter with e' | ⟨docs, cerr⟩
  · simp only [FindAll, hq]
  · rcases hl : findAllLoop decode docs none with e' | results
    · simp only [FindAll, hq, hl]
    · cases cerr with
      | some e' => simp only [FindAll, hq, hl]
      | none =>
        simp only [FindAll, hq, hl] at h
        exact absurd h (by simp)

/-- C9 witness: a concrete decode failure midway through a cursor; the
slice returned with the error is the nil slice. -/
theorem C9_findAll_nil_on_error_witness :
    (FindAll natRepo (fun _ => Except.ok ([annDoc, badDoc], none)) decodeAgeE []).1.1 = none :=
  C9_findAll_nil_on_error natRepo (fun _ => Except.ok ([annDoc, badDoc], none)) decodeAgeE []
    (Err.decodeFail "cannot decode document") (by decide)

/-- C3: `FindOneById` constructs the exact-match `_id` filter (matching
a document precisely when its `_id` field equals the id), is exactly the
driver find-one-and-decode at that filter, and returns an error both
when no document matches (the driver's not-found error) and when
decoding fails — through the same error channel, undistinguished at
this layer; never a zero-valued entity silently treated as success on
no-match. -/
theorem C3_findOneById_filter_and_errors {T : Type} (repo : MongoBaseRepository T)
    (store : List BsonM) (decode : BsonM → T × Option String) (zero : T) (id : String) :
    (∀ doc : BsonM,
      matchesFilter (idFilter id) doc = true ↔ blookup "_id" doc = some (BVal.str id)) ∧
    FindOneById repo (mongoFindOneDecode store decode zero) id
      = (mongoFindOneDecode store decode zero (idFilter id), repo) ∧
    (driverFindOne store (idFilter id) = none →
      (FindOneById repo (mongoFindOneDecode store decode zero) id).1.2
        = some Err.noDocuments) ∧
    (∀ (d : BsonM) (msg : String),
      driverFindOne store (idFilter id) = some d → (decode d).2 = some msg →
      (FindOneById repo (mongoFindOneDecode store decode zero) id).1.2
        = some (Err.decodeFail msg)) := by
  refine ⟨matchesFilter_idFilter id, findOneById_eq repo _ id, ?_, ?_⟩
  · intro h
    rw [findOneById_eq]
    simp only [mongoFindOneDecode, h, singleResultDecode]
  · intro d msg hd hmsg
    rw [findOneById_eq]
    simp only [mongoFindOneDecode, hd, singleResultDecode]
    rcases hdec : decode d with ⟨v, oerr⟩
    rw [hdec] at hmsg
    simp at hmsg
    subst hmsg
    rfl

/-- C3 witness: on a concrete store, an id with no matching document
yields the not-found error, and a matching document that fails to
decode yields the decode error; the filter predicate evaluated on a
concrete document. -/
theorem C3_findOneById_filter_and_errors_witness :
    (matchesFilter (idFilter "u1") annDoc = true ↔
      blookup "_id" annDoc = some (BVal.str "u1")) ∧
    (FindOneById natRepo (mongoFindOneDecode sampleStore decodeAge 0) "zz").1.2
      = some Err.noDocuments ∧
    (FindOneById natRepo (mongoFindOneDecode [annDoc, badDoc] decodeAge 0) "u3").1.2
      = some (Err.decodeFail "cannot decode document") :=
  ⟨(C3_findOneById_filter_and_errors natRepo sampleStore decodeAge 0 "u1").1 annDoc,
   (C3_findOneById_filter_and_errors natRepo sampleStore decodeAge 0 "zz").2.2.1 (by decide),
   (C3_findOneById_filter_and_errors natRepo [annDoc, badDoc] decodeAge 0 "u3").2.2.2
     badDoc "cannot decode document" (by decide) (by decide)⟩

/-- C10: when the driver reports that no document matched the id (so no
decoding occurs), `FindOneById` returns exactly the zero value of the
entity type (the untouched `var result T`) alongside the not-found
error. -/
theorem C10_findOneById_zero_value_on_no_match {T : Type} (repo : MongoBaseRepository T)
    (store : List BsonM) (decode : BsonM → T × Option String) (zero : T) (id : String)
    (h : driverFindOne store (idFilter id) = none) :
    (FindOneById repo (mongoFindOneDecode store decode zero) id).1
      = (zero, some Err.noDocuments) := by
  rw [findOneById_eq]
  simp only [mongoFindOneDecode, h, singleResultDecode]

/-- C10 witness: a concrete store with no document for id `"zz"`; the
returned entity is the zero value `0`. -/
theorem C10_findOneById_zero_value_on_no_match_witness :
    (FindOneById natRepo (mongoFindOneDecode sampleStore decodeAge 0) "zz").1
      = (0, some Err.noDocuments) :=
  C10_findOneById_zero_value_on_no_match natRepo sampleStore decodeAge 0 "zz" (by decide)

/-- C4: `UpdateOneById` applies the mapping through the driver's
`$set` with replace-field semantics: the call succeeds, a subsequent
`FindOneById` on the same identifier finds the document with every key
of the mapping overwritten and every other field retaining its prior
value, and decodes exactly that document. -/
theorem C4_updateOneById_replace_fields {T : Type} (repo : MongoBaseRepository T)
    (store : List BsonM) (id : String) (update : BsonM) (d : BsonM)
    (hfound : driverFindOne store (idFilter id) = some d)
    (hid : "_id" ∉ update.map Prod.fst)
    (hnd : (update.map Prod.fst).Nodup) :
    (UpdateOneById repo (fun flt u => (driverUpdateOne store flt u).2) id update).1
      = none ∧
    driverFindOne (driverUpdateOne store (idFilter id) (BUpdate.set update)).1 (idFilter id)
      = some (setFields d update) ∧
    (∀ k, blookup k (setFields d update) =
      match blookup k update with
      | some v => some v
      | none => blookup k d) ∧
    (∀ (decode : BsonM → T × Option String) (zero : T),
      (FindOneById repo
          (mongoFindOneDecode (driverUpdateOne store (idFilter id) (BUpdate.set update)).1
            decode zero) id).1
        = singleResultDecode decode zero (some (setFields d update))) := by
  have hfound' : store.find? (fun doc => matchesFilter (idFilter id) doc) = some d := hfound
  have hmatch : matchesFilter (idFilter id) d = true := find?_matches hfound
  have hupd_none : blookup "_id" update = none :=
    blookup_eq_none_of_not_mem hid
  have hset_id : blookup "_id" (setFields d update) = blookup "_id" d := by
    rw [setFields_blookup update d "_id" hnd, hupd_none]
  have hmatch' : matchesFilter (idFilter id) (setFields d update) = true := by
    rw [matchesFilter_idFilter, hset_id]
    exact (matchesFilter_idFilter id d).mp hmatch
  have hstore' : (driverUpdateOne store (idFilter id) (BUpdate.set update)).1
      = updateFirst (fun doc => matchesFilter (idFilter id) doc)
          (applyUpdate (BUpdate.set update)) store := by
    simp only [driverUpdateOne, hfound']
  have hfind' : driverFindOne (driverUpdateOne store (idFilter id) (BUpdate.set update)).1
      (idFilter id) = some (setFields d update) := by
    rw [hstore']
    exact find?_updateFirst (fun doc => matchesFilter (idFilter id) doc)
      (applyUpdate (BUpdate.set update)) store d hfound' hmatch'
  refine ⟨?_, hfind', ?_, ?_⟩
  · simp only [UpdateOneById, driverUpdateOne, hfound']
  · intro k
    exact setFields_blookup update d k hnd
  · intro decode zero
    rw [findOneById_eq]
    simp only [mongoFindOneDecode, hfind']

/-- C4 witness: updating `{age: 31}` on the stored document for `"u1"`
succeeds; the subsequent find-by-id sees `age` overwritten and `_id`,
`name` untouched. -/
theorem C4_updateOneById_replace_fields_witness :
    (UpdateOneById natRepo
        (fun flt u => (driverUpdateOne sampleStore flt u).2) "u1"
        [("age", BVal.int 31)]).1 = none ∧
    driverFindOne
        (driverUpdateOne sampleStore (idFilter "u1")
          (BUpdate.set [("age", BVal.int 31)])).1 (idFilter "u1")
      = some [("_id", BVal.str "u1"), ("name", BVal.str "Ann"), ("age", BVal.int 31)] ∧
    (FindOneById natRepo
        (mongoFindOneDecode
          (driverUpdateOne sampleStore (idFilter "u1")
            (BUpdate.set [("age", BVal.int 31)])).1 decodeAge 0) "u1").1
      = (31, none) :=
  ⟨(C4_updateOneById_replace_fields natRepo sampleStore "u1" [("age", BVal.int 31)] annDoc
      (by decide) (by decide) (by decide)).1,
   (C4_updateOneById_replace_fields natRepo sampleStore "u1" [("age", BVal.int 31)] annDoc
      (by decide) (by decide) (by decide)).2.1,
   (C4_updateOneById_replace_fields natRepo sampleStore "u1" [("age", BVal.int 31)] annDoc
      (by decide) (by decide) (by decide)).2.2.2 decodeAge 0⟩

/-- C5: when no document matches the id, `UpdateOneById` and
`DeleteOneById` both return success: the driver succeeds with zero
matched/modified/deleted and an unchanged store, and the repository
layer discards the result counts entirely (it returns success for every
successful driver result, whatever the counts). -/
theorem C5_zero_match_noop_success {T : Type} (repo : MongoBaseRepository T)
    (store : List BsonM) (id : String) (update : BsonM)
    (h : driverFindOne store (idFilter id) = none) :
    (UpdateOneById repo (fun flt u => (driverUpdateOne store flt u).2) id update).1
      = none ∧
    (driverUpdateOne store (idFilter id) (BUpdate.set update)).1 = store ∧
    (driverUpdateOne store (idFilter id) (BUpdate.set update)).2
      = Except.ok { matchedCount := 0, modifiedCount := 0 } ∧
    (DeleteOneById repo (fun flt => (driverDeleteOne store flt).2) id).1 = none ∧
    (driverDeleteOne store (idFilter id)).1 = store ∧
    (driverDeleteOne store (idFilter id)).2 = Except.ok { deletedCount := 0 } ∧
    (∀ res : UpdateResult,
      (UpdateOneById repo (fun _ _ => Except.ok res) id update).1 = none) ∧
    (∀ res : DeleteResult,
      (DeleteOneById repo (fun _ => Except.ok res) id).1 = none) := by
  have h' : store.find? (fun doc => matchesFilter (idFilter id) doc) = none := h
  refine ⟨?_, ?_, ?_, ?_, ?_, ?_, ?_, ?_⟩
  · simp only [UpdateOneById, driverUpdateOne, h']
  · simp only [driverUpdateOne, h']
  · simp only [driverUpdateOne, h']
  · simp only [DeleteOneById, driverDeleteOne, h']
  · simp only [driverDeleteOne, h']
  · simp only [driverDeleteOne, h']
  · intro res; rfl
  · intro res; rfl

/-- C5 witness: id `"zz"` matches nothing in the concrete store; update
and delete both report success and leave the store unchanged. -/
theorem C5_zero_match_noop_success_witness :
    (UpdateOneById natRepo
        (fun flt u => (driverUpdateOne sampleStore flt u).2) "zz"
        [("age", BVal.int 99)]).1 = none ∧
    (driverUpdateOne sampleStore (idFilter "zz")
        (BUpdate.set [("age", BVal.int 99)])).1 = sampleStore ∧
    (DeleteOneById natRepo (fun flt => (driverDeleteOne sampleStore flt).2) "zz").1
      = none ∧
    (driverDeleteOne sampleStore (idFilter "zz")).1 = sampleStore :=
  ⟨(C5_zero_match_noop_success natRepo sampleStore "zz" [("age", BVal.int 99)]
      (by decide)).1,
   (C5_zero_match_noop_success natRepo sampleStore "zz" [("age", BVal.int 99)]
      (by decide)).2.1,
   (C5_zero_match_noop_success natRepo sampleStore "zz" [("age", BVal.int 99)]
      (by decide)).2.2.2.1,
   (C5_zero_match_noop_success natRepo sampleStore "zz" [("age", BVal.int 99)]
      (by decide)).2.2.2.2.1⟩

/-- C6: `Connect` first builds the driver client, then pings; it
returns a usable connection exactly when both steps succeed (wrapping
that client), and otherwise returns the underlying failure unchanged —
the client-construction error when construction fails, the ping error
when the ping fails.  Each step is invoked once on any path: there is
no retry. -/
theorem C6_connect_ping_gate {C : Type} (mongoConnect : String → Except Err C)
    (ping : C → Option Err) (connectionStr : String) :
    (∀ mc : MongoClient C,
      Connect mongoConnect ping connectionStr = Except.ok mc ↔
        (mongoConnect connectionStr = Except.ok mc.client ∧ ping mc.client = none)) ∧
    (∀ e : Err, mongoConnect connectionStr = Except.error e →
      Connect mongoConnect ping connectionStr = Except.error e) ∧
    (∀ (c : C) (e : Err), mongoConnect connectionStr = Except.ok c → ping c = some e →
      Connect mongoConnect ping connectionStr = Except.error e) := by
  refine ⟨?_, ?_, ?_⟩
  · intro mc
    constructor
    · intro h
      rcases hc : mongoConnect connectionStr with e | c
      · have hcon : Connect mongoConnect ping connectionStr = Except.error e := by
          simp only [Connect, hc]
        rw [hcon] at h
        exact Except.noConfusion h
      · rcases hp : ping c with _ | e
        · have hcon : Connect mongoConnect ping connectionStr
              = Except.ok (MongoClient.mk c) := by
            simp only [Connect, hc, hp]
          rw [hcon] at h
          obtain rfl : MongoClient.mk c = mc := by injection h
          exact ⟨rfl, hp⟩
        · have hcon : Connect mongoConnect ping connectionStr = Except.error e := by
            simp only [Connect, hc, hp]
          rw [hcon] at h
          exact Except.noConfusion h
    · rintro ⟨hc, hp⟩
      simp only [Connect, hc, hp]
  · intro e hc
    simp only [Connect, hc]
  · intro c e hc hp
    simp only [Connect, hc, hp]

/-- C6 witness: a connection whose construction and ping succeed yields
the wrapped client; a failing construction and a failing ping each
propagate their exact error. -/
theorem C6_connect_ping_gate_witness :
    Connect (fun s => Except.ok (Client.mk s)) (fun _ => none) "mongodb-good"
      = Except.ok (MongoClient.mk (Client.mk "mongodb-good")) ∧
    Connect (fun _ => Except.error (Err.driver "bad uri"))
        (fun _ : Client => none) "mongodb-bad"
      = Except.error (Err.driver "bad uri") ∧
    Connect (fun s => Except.ok (Client.mk s))
        (fun _ => some (Err.driver "host unreachable")) "mongodb-down"
      = Except.error (Err.driver "host unreachable") :=
  ⟨((C6_connect_ping_gate (fun s => Except.ok (Client.mk s)) (fun _ => none)
      "mongodb-good").1 (MongoClient.mk (Client.mk "mongodb-good"))).mpr
      ⟨rfl, rfl⟩,
   (C6_connect_ping_gate (fun _ => Except.error (Err.driver "bad uri"))
      (fun _ : Client => none) "mongodb-bad").2.1 (Err.driver "bad uri") rfl,
   (C6_connect_ping_gate (fun s => Except.ok (Client.mk s))
      (fun _ => some (Err.driver "host unreachable")) "mongodb-down").2.2
      (Client.mk "mongodb-down") (Err.driver "host unreachable") rfl rfl⟩

/-- C7: every repository operation returns the driver's error value
unmodified — `InsertOne`, `FindOneById` (with the buffer as the driver
left it), each of the three failure sources of `FindAll`,
`UpdateOneById` and `DeleteOneById`; no wrapping, reclassification,
recovery or retry. -/
theorem C7_driver_errors_unmodified {T : Type} (repo : MongoBaseRepository T) :
    (∀ e : Err, (InsertOne repo (Except.error e)).1 = some e) ∧
    (∀ (findOneDecode : BsonM → T × Option Err) (id : String) (v : T) (e : Err),
      findOneDecode (idFilter id) = (v, some e) →
      (FindOneById repo findOneDecode id).1 = (v, some e)) ∧
    (∀ (find : BsonM → Except Err (List BsonM × Option Err))
        (decode : BsonM → Except Err T) (filter : BsonM) (e : Err),
      find filter = Except.error e →
      (FindAll repo find decode filter).1 = (none, some e)) ∧
    (∀ (find : BsonM → Except Err (List BsonM × Option Err))
        (decode : BsonM → Except Err T) (filter : BsonM)
        (docs : List BsonM) (cerr : Option Err) (e : Err),
      find filter = Except.ok (docs, cerr) →
      findAllLoop decode docs none = Except.error e →
      (FindAll repo find decode filter).1 = (none, some e)) ∧
    (∀ (find : BsonM → Except Err (List BsonM × Option Err))
        (decode : BsonM → Except Err T) (filter : BsonM)
        (docs : List BsonM) (e : Err) (results : GoSlice T),
      find filter = Except.ok (docs, some e) →
      findAllLoop decode docs none = Except.ok results →
      (FindAll repo find decode filter).1 = (none, some e)) ∧
    (∀ (driverUpdate : BsonM → BUpdate → Except Err UpdateResult)
        (id : String) (update : BsonM) (e : Err),
      driverUpdate (idFilter id) (BUpdate.set update) = Except.error e →
      (UpdateOneById repo driverUpdate id update).1 = some e) ∧
    (∀ (driverDelete : BsonM → Except Err DeleteResult) (id : String) (e : Err),
      driverDelete (idFilter id) = Except.error e →
      (DeleteOneById repo driverDelete id).1 = some e) := by
  refine ⟨?_, ?_, ?_, ?_, ?_, ?_, ?_⟩
  · intro e; rfl
  · intro f id v e hf
    rw [findOneById_eq, hf]
  · intro find decode filter e hq
    simp only [FindAll, hq]
  · intro find decode filter docs cerr e hq hl
    simp only [FindAll, hq, hl]
  · intro find decode filter docs e results hq hl
    simp only [FindAll, hq, hl]
  · intro driverUpdate id update e hu
    simp only [UpdateOneById, hu]
  · intro driverDelete id e hd
    simp only [DeleteOneById, hd]

/-- C7 witness: a concrete driver error value is returned as-is by each
of the five operations (all three `FindAll` failure sources included). -/
theorem C7_driver_errors_unmodified_witness :
    (InsertOne natRepo (Except.error (Err.driver "duplicate key"))).1
      = some (Err.driver "duplicate key") ∧
    (FindOneById natRepo (fun _ => (0, some (Err.driver "network"))) "u1").1
      = (0, some (Err.driver "network")) ∧
    (FindAll natRepo (fun _ => Except.error (Err.driver "bad filter")) decodeAgeE []).1
      = (none, some (Err.driver "bad filter")) ∧
    (FindAll natRepo (fun _ => Except.ok ([badDoc], none)) decodeAgeE []).1
      = (none, some (Err.decodeFail "cannot decode document")) ∧
    (FindAll natRepo (fun _ => Except.ok ([], some (Err.driver "cursor"))) decodeAgeE []).1
      = (none, some (Err.driver "cursor")) ∧
    (UpdateOneById natRepo (fun _ _ => Except.error (Err.driver "validation")) "u1"
        [("age", BVal.int 31)]).1 = some (Err.driver "validation") ∧
    (DeleteOneById natRepo (fun _ => Except.error (Err.driver "timeout")) "u1").1
      = some (Err.driver "timeout") :=
  ⟨(C7_driver_errors_unmodified natRepo).1 (Err.driver "duplicate key"),
   (C7_driver_errors_unmodified natRepo).2.1 (fun _ => (0, some (Err.driver "network")))
     "u1" 0 (Err.driver "network") rfl,
   (C7_driver_errors_unmodified natRepo).2.2.1 (fun _ => Except.error (Err.driver "bad filter"))
     decodeAgeE [] (Err.driver "bad filter") rfl,
   (C7_driver_errors_unmodified natRepo).2.2.2.1 (fun _ => Except.ok ([badDoc], none))
     decodeAgeE [] [badDoc] none (Err.decodeFail "cannot decode document") rfl (by decide),
   (C7_driver_errors_unmodified natRepo).2.2.2.2.1
     (fun _ => Except.ok ([], some (Err.driver "cursor"))) decodeAgeE [] []
     (Err.driver "cursor") none rfl rfl,
   (C7_driver_errors_unmodified natRepo).2.2.2.2.2.1
     (fun _ _ => Except.error (Err.driver "validation")) "u1" [("age", BVal.int 31)]
     (Err.driver "validation") rfl,
   (C7_driver_errors_unmodified natRepo).2.2.2.2.2.2
     (fun _ => Except.error (Err.driver "timeout")) "u1" (Err.driver "timeout") rfl⟩

/-- C8: the repository is stateless after construction — a repository
value is fully determined by its single `collection` field, which `New`
sets to the handle derived from the client, database name and collection
name; and every one of the five operations leaves the repository value
it received unchanged, for every driver outcome. -/
theorem C8_repository_stateless {T : Type} :
    (∀ r s : MongoBaseRepository T, r.collection = s.collection → r = s) ∧
    (∀ (client : Client) (dbName colName : String),
      (New T client dbName colName).collection
        = databaseCollection (clientDatabase client dbName) colName) ∧
    (∀ (repo : MongoBaseRepository T) (di : Except Err InsertOneResult),
      (InsertOne repo di).2 = repo) ∧
    (∀ (repo : MongoBaseRepository T) (f : BsonM → T × Option Err) (id : String),
      (FindOneById repo f id).2 = repo) ∧
    (∀ (repo : MongoBaseRepository T) (find : BsonM → Except Err (List BsonM × Option Err))
        (decode : BsonM → Except Err T) (filter : BsonM),
      (FindAll repo find decode filter).2 = repo) ∧
    (∀ (repo : MongoBaseRepository T) (du : BsonM → BUpdate → Except Err UpdateResult)
        (id : String) (update : BsonM),
      (UpdateOneById repo du id update).2 = repo) ∧
    (∀ (repo : MongoBaseRepository T) (dd : BsonM → Except Err DeleteResult) (id : String),
      (DeleteOneById repo dd id).2 = repo) := by
  refine ⟨?_, ?_, ?_, ?_, ?_, ?_, ?_⟩
  · intro r s h
    cases r
    cases s
    cases h
    rfl
  · intro client dbName colName; rfl
  · intro repo di
    cases di <;> rfl
  · intro repo f id
    rw [findOneById_eq]
  · intro repo find decode filter
    rcases hq : find filter with e | ⟨docs, cerr⟩
    · simp only [FindAll, hq]
    · rcases hl : findAllLoop decode docs none with e | results
      · simp only [FindAll, hq, hl]
      · cases cerr <;> simp only [FindAll, hq, hl]
  · intro repo du id update
    cases hu : du (idFilter id) (BUpdate.set update) <;> simp only [UpdateOneById, hu]
  · intro repo dd id
    cases hd : dd (idFilter id) <;> simp only [DeleteOneById, hd]

/-- C8 witness: the determination-by-collection fact instantiated at a
concrete repository, and each operation returning the concrete
repository unchanged. -/
theorem C8_repository_stateless_witness :
    natRepo = natRepo ∧
    (InsertOne natRepo (Except.ok { insertedID := BVal.str "u9" })).2 = natRepo ∧
    (FindOneById natRepo (mongoFindOneDecode sampleStore decodeAge 0) "u1").2 = natRepo ∧
    (FindAll natRepo (fun _ => Except.ok (sampleStore, none)) decodeAgeE []).2 = natRepo ∧
    (UpdateOneById natRepo (fun flt u => (driverUpdateOne sampleStore flt u).2) "u1"
        [("age", BVal.int 31)]).2 = natRepo ∧
    (DeleteOneById natRepo (fun flt => (driverDeleteOne sampleStore flt).2) "u1").2
      = natRepo :=
  ⟨(C8_repository_stateless (T := Nat)).1 natRepo natRepo rfl,
   (C8_repository_stateless (T := Nat)).2.2.1 natRepo (Except.ok { insertedID := BVal.str "u9" }),
   (C8_repository_stateless (T := Nat)).2.2.2.1 natRepo
     (mongoFindOneDecode sampleStore decodeAge 0) "u1",
   (C8_repository_stateless (T := Nat)).2.2.2.2.1 natRepo
     (fun _ => Except.ok (sampleStore, none)) decodeAgeE [],
   (C8_repository_stateless (T := Nat)).2.2.2.2.2.1 natRepo
     (fun flt u => (driverUpdateOne sampleStore flt u).2) "u1" [("age", BVal.int 31)],
   (C8_repository_stateless (T := Nat)).2.2.2.2.2.2 natRepo
     (fun flt => (driverDeleteOne sampleStore flt).2) "u1"⟩

end GoLibraries
